import Mathlib

/-!
Verification of the keyword matching and classification engine of the
paper-agent repository (lib/filter.py).  Texts are modelled as lists of
characters; Python regular-expression search of an escaped literal is
modelled as (whole-word–bounded) substring search; Python dictionaries
are modelled as association lists with first-match lookup.
-/

/-- Texts and literals are lists of characters (Python str). -/
abbrev Str := List Char

/-- Convenience conversion from a Lean string literal. -/
def strL (s : String) : Str := s.toList

/-- Python regex whitespace class (ASCII part of re \s): space, tab,
newline, carriage return, vertical tab, form feed. -/
def wsChar (c : Char) : Bool :=
  c = ' ' || c = '\t' || c = '\n' || c = '\r' || c = '\x0b' || c = '\x0c'

/-- One pass of re.sub(r'\s+', ' ', text): the flag records whether we
are inside a whitespace run that has already emitted its single space. -/
def collapseAux : Bool → Str → Str
  | _, [] => []
  | inRun, c :: rest =>
    if wsChar c then
      if inRun then collapseAux true rest
      else ' ' :: collapseAux true rest
    else c :: collapseAux false rest

/-- re.sub(r'\s+', ' ', text): collapse every whitespace run to one space. -/
def collapseWS (t : Str) : Str := collapseAux false t

/-- str.lower / re.IGNORECASE case folding (ASCII range). -/
def toLowerStr (s : Str) : Str := s.map Char.toLower

/-- Test whether the first list begins the second (w begins t). -/
def leadsB : Str → Str → Bool
  | [], _ => true
  | _ :: _, [] => false
  | a :: as, b :: bs => a == b && leadsB as bs

/-- Plain substring search: re.search of an escaped literal without
word boundaries.  The empty literal matches every text. -/
def subB (w : Str) : Str → Bool
  | [] => leadsB w []
  | c :: rest => leadsB w (c :: rest) || subB w rest

/-- Word-character test for the regex \b boundary (ASCII part of \w). -/
def isWordO : Option Char → Bool
  | none => false
  | some c => c.isAlphanum || c = '_'

/-- Does the literal w match at the head of suffix t, with p the character
just before t, under \b boundaries on both sides (pattern \b w \b)? -/
def wwAt (p : Option Char) (w t : Str) : Bool :=
  leadsB w t &&
  (isWordO p != isWordO t.head?) &&
  (isWordO (if w = [] then p else w.getLast?) != isWordO (t.drop w.length).head?)

/-- Scan every position of the text for a whole-word match. -/
def wwSearchAux (w : Str) : Option Char → Str → Bool
  | p, [] => wwAt p w []
  | p, c :: rest => wwAt p w (c :: rest) || wwSearchAux w (some c) rest

/-- re.search of pattern \b literal \b over the whole text. -/
def wwSearch (w t : Str) : Bool := wwSearchAux w none t

/-- pattern.search(text) for the compiled pattern of a literal word:
re.escape makes the word an exact literal, whole_word wraps it in \b,
and IGNORECASE folds case on both sides (filter.py _compile_patterns). -/
def patMatch (ci ww : Bool) (word text : Str) : Bool :=
  let w := if ci then toLowerStr word else word
  let t := if ci then toLowerStr text else text
  if ww then wwSearch w t else subB w t

/-- Association-list lookup with Python dict semantics (keys unique). -/
def lookupB (k : Str) : List (Str × List Str) → Option (List Str)
  | [] => none
  | kv :: rest => if kv.1 = k then some kv.2 else lookupB k rest

/-- BUILTIN_SYNONYMS from filter.py, transcribed verbatim. -/
def BUILTIN_SYNONYMS : List (Str × List Str) :=
  [ (strL ("molecular"), [strL ("molecule"), strL ("molecules"), strL ("chemical"), strL ("chemistry")]),
    (strL ("drug"), [strL ("pharmaceutical"), strL ("medication"), strL ("medicine"), strL ("therapeutic")]),
    (strL ("compound"), [strL ("chemical compound"), strL ("small molecule")]),
    (strL ("generation"), [strL ("generative"), strL ("generating"), strL ("synthesis"), strL ("synthesizing")]),
    (strL ("design"), [strL ("designing"), strL ("discovery"), strL ("screening")]),
    (strL ("diffusion"), [strL ("diffusion model"), strL ("diffusion-based")]),
    (strL ("transformer"), [strL ("attention"), strL ("self-attention")]),
    (strL ("graph"), [strL ("graph neural network"), strL ("gnn"), strL ("graph-based")]),
    (strL ("learning"), [strL ("machine learning"), strL ("ml"), strL ("deep learning")]),
    (strL ("protein"), [strL ("proteins"), strL ("peptide"), strL ("amino acid")]),
    (strL ("binding"), [strL ("affinity"), strL ("docking"), strL ("interaction")]),
    (strL ("target"), [strL ("receptor"), strL ("enzyme"), strL ("protein target")]) ]

/-- FilterConfig.__post_init__: merged = BUILTIN_SYNONYMS.copy();
merged.update(user).  A builtin key keeps its position, its value
replaced when the user overrides it; user-only keys are appended. -/
def resolveSynonyms (user : List (Str × List Str)) : List (Str × List Str) :=
  BUILTIN_SYNONYMS.map (fun kv => (kv.1, (lookupB kv.1 user).getD kv.2)) ++
  user.filter (fun kv => (lookupB kv.1 BUILTIN_SYNONYMS).isNone)

/-- FilterConfig (filter.py): synonyms is the already-resolved table. -/
structure FilterConfig where
  include_groups : List (List Str)
  exclude : List Str
  synonyms : List (Str × List Str)
  match_fields : List Str
  case_sensitive : Bool
  whole_word : Bool
deriving DecidableEq

/-- FilterConfig construction including __post_init__ synonym merging. -/
def mkFilterConfig (ig : List (List Str)) (ex : List Str)
    (syn : List (Str × List Str)) (mf : List Str) (cs ww : Bool) : FilterConfig :=
  { include_groups := ig, exclude := ex, synonyms := resolveSynonyms syn,
    match_fields := mf, case_sensitive := cs, whole_word := ww }

/-- Default match_fields value of FilterConfig. -/
def defaultFields : List Str := [strL ("title"), strL ("abstract")]

/-- word.lower() if not case_sensitive else word (filter.py line 84/88/92). -/
def normWord (cfg : FilterConfig) (w : Str) : Str :=
  if cfg.case_sensitive then w else toLowerStr w

/-- The synonyms of a keyword looked up under its authored form; a key
absent from the table yields no synonyms (mirrors the membership test
`word in self.config.synonyms` guarding each synonym loop). -/
def synsOf (cfg : FilterConfig) (w : Str) : List Str :=
  (lookupB w cfg.synonyms).getD []

/-- KeywordFilter._get_all_keywords: the key set of the compiled pattern
table.  Include-group keywords contribute themselves (normalised) and
their synonyms (normalised); exclude keywords contribute only
themselves — their synonyms are NOT collected. -/
def getAllKeywords (cfg : FilterConfig) : List Str :=
  (cfg.include_groups.flatMap fun g =>
    g.flatMap fun w => normWord cfg w :: (synsOf cfg w).map (normWord cfg)) ++
  cfg.exclude.map (normWord cfg)

/-- KeywordFilter._contains_keyword: self.patterns.get(keyword) returns a
pattern only when the looked-up string equals one of the stored keys; a
miss yields False.  The stored pattern for a key is the compiled escape
of that very key string under the two mode flags. -/
def containsKeyword (cfg : FilterConfig) (text kw : Str) : Bool :=
  if kw ∈ getAllKeywords cfg then patMatch (!cfg.case_sensitive) cfg.whole_word kw text
  else false

/-- KeywordFilter._preprocess_text: empty guard, optional lowering, then
whitespace collapsing. -/
def preprocessText (cfg : FilterConfig) (t : Str) : Str :=
  if t = [] then []
  else collapseWS (if cfg.case_sensitive then t else toLowerStr t)

/-- A record field value: a plain string or a list of strings (the two
types _get_paper_text treats as textual). -/
inductive FieldVal where
  | str (s : Str)
  | lst (l : List Str)
deriving DecidableEq

/-- A record (paper dict): field name to value. -/
abbrev Paper := List (Str × FieldVal)

/-- paper.get(field, ''): association lookup with empty-string default. -/
def lookupField (p : Paper) (f : Str) : FieldVal :=
  match p with
  | [] => FieldVal.str []
  | kv :: rest => if kv.1 = f then kv.2 else lookupField rest f

/-- KeywordFilter._get_paper_text: in match_fields order, a string field
contributes itself, a list field contributes its elements joined by a
single space; the fields are joined by single spaces and preprocessed. -/
def getPaperText (cfg : FilterConfig) (p : Paper) : Str :=
  preprocessText cfg
    (List.intercalate [' ']
      (cfg.match_fields.map fun f =>
        match lookupField p f with
        | FieldVal.str s => s
        | FieldVal.lst l => List.intercalate [' '] l))

/-- One entry of match_info['matched_groups']. -/
structure GroupMatch where
  group_index : Nat
  group : List Str
  matched_keywords : List Str
deriving DecidableEq

/-- match_info built by KeywordFilter._check_paper. -/
structure MatchInfo where
  is_relevant : Bool
  matched_groups : List GroupMatch
  matched_keywords : List Str
  excluded : Bool
  exclude_reason : Option Str
deriving DecidableEq

/-- The inner exclude-synonym loop: the first synonym whose pattern
search succeeds (filter.py lines 174-180). -/
def firstMatchingSyn (cfg : FilterConfig) (text : Str) : List Str → Option Str
  | [] => none
  | s :: rest =>
    if containsKeyword cfg text s then some s
    else firstMatchingSyn cfg text rest

/-- Exclusion pass of _check_paper: scan exclude words in order; a hit on
the word itself or one of its synonyms returns the formatted reason. -/
def checkExclude (cfg : FilterConfig) (text : Str) : List Str → Option Str
  | [] => none
  | w :: rest =>
    if containsKeyword cfg text w then some (strL ("包含排除词: ") ++ w)
    else
      match firstMatchingSyn cfg text (synsOf cfg w) with
      | some s => some (strL ("包含排除词同义词: ") ++ s ++ strL (" (来自 ") ++ w ++ strL (")"))
      | none => checkExclude cfg text rest

/-- The inner include-synonym loop of _check_paper: scans every synonym,
returning whether any matched and the decorated diagnostics, in order. -/
def synScan (cfg : FilterConfig) (text kw : Str) : List Str → Bool × List Str
  | [] => (false, [])
  | s :: rest =>
    let r := synScan cfg text kw rest
    if containsKeyword cfg text s then
      (true, (s ++ strL ("(") ++ kw ++ strL (")")) :: r.2)
    else r

/-- Per-keyword test of the inclusion pass: the keyword itself first,
then every synonym; fst is keyword_matched, snd is matched_words. -/
def keywordMatches (cfg : FilterConfig) (text kw : Str) : Bool × List Str :=
  let direct := containsKeyword cfg text kw
  let sr := synScan cfg text kw (synsOf cfg kw)
  (direct || sr.1, (if direct then [kw] else []) ++ sr.2)

/-- One group of the inclusion pass: all keywords must match; evaluation
of the remaining keywords stops at the first unmatched one (the break);
on success returns the concatenated matched_words of the group. -/
def checkGroup (cfg : FilterConfig) (text : Str) : List Str → Option (List Str)
  | [] => some []
  | kw :: rest =>
    if (keywordMatches cfg text kw).1 then
      match checkGroup cfg text rest with
      | some ws => some ((keywordMatches cfg text kw).2 ++ ws)
      | none => none
    else none

/-- Python enumerate over the include groups. -/
def withIdx (n : Nat) : List (List Str) → List (Nat × List Str)
  | [] => []
  | g :: gs => (n, g) :: withIdx (n + 1) gs

/-- The group loop of _check_paper: every group is evaluated and every
fully matched one is recorded. -/
def collectGroups (cfg : FilterConfig) (text : Str) : List (Nat × List Str) → List GroupMatch
  | [] => []
  | ig :: rest =>
    match checkGroup cfg text ig.2 with
    | some ws => { group_index := ig.1, group := ig.2, matched_keywords := ws } :: collectGroups cfg text rest
    | none => collectGroups cfg text rest

/-- KeywordFilter._check_paper.  On an exclusion hit it returns at once
with the initial empty lists; otherwise it evaluates every include group
and deduplicates the flattened matched keywords (list(set(..)) — the
set iteration order is unspecified in Python, modelled here as
first-occurrence deduplication; no claim depends on that order). -/
def checkPaper (cfg : FilterConfig) (text : Str) : MatchInfo :=
  match checkExclude cfg text cfg.exclude with
  | some r =>
    { is_relevant := false, matched_groups := [], matched_keywords := [],
      excluded := true, exclude_reason := some r }
  | none =>
    let mg := collectGroups cfg text (withIdx 0 cfg.include_groups)
    { is_relevant := !mg.isEmpty, matched_groups := mg,
      matched_keywords := (mg.flatMap GroupMatch.matched_keywords).dedup,
      excluded := false, exclude_reason := none }

/-- An annotated output record: paper.copy() plus the added keys
'relevant' and 'match_info' (the original paper value is kept intact). -/
structure AnnPaper where
  paper : Paper
  relevant : Bool
  match_info : MatchInfo
deriving DecidableEq

/-- The per-paper body of KeywordFilter.filter_papers. -/
def annotate (cfg : FilterConfig) (p : Paper) : AnnPaper :=
  let mi := checkPaper cfg (getPaperText cfg p)
  { paper := p, relevant := mi.is_relevant, match_info := mi }

/-- KeywordFilter.filter_papers: evaluate each paper in input order and
partition the annotated copies by is_relevant, preserving order. -/
def filterPapers (cfg : FilterConfig) : List Paper → List AnnPaper × List AnnPaper
  | [] => ([], [])
  | p :: rest =>
    let a := annotate cfg p
    let r := filterPapers cfg rest
    if a.match_info.is_relevant then (a :: r.1, r.2) else (r.1, a :: r.2)

/-- counts[k] = counts.get(k, 0) + 1 on an insertion-ordered dict. -/
def bumpKey {κ : Type} [DecidableEq κ] : List (κ × Nat) → κ → List (κ × Nat)
  | [], k => [(k, 1)]
  | kv :: rest, k =>
    if kv.1 = k then (kv.1, kv.2 + 1) :: rest else kv :: bumpKey rest k

/-- Value of a key in a counts dict (0 when absent). -/
def lookupCount {κ : Type} [DecidableEq κ] : List (κ × Nat) → κ → Nat
  | [], _ => 0
  | kv :: rest, k => if kv.1 = k then kv.2 else lookupCount rest k

/-- get_statistics group loop: over the relevant partition, each matched
group bumps the count of its keyword tuple tuple(group_match['group']).
The code serialises the key as str(tuple) when returning; the key
content is the ordered keyword tuple itself, kept as such here. -/
def groupCounts (relevant : List AnnPaper) : List (List Str × Nat) :=
  relevant.foldl
    (fun m p => p.match_info.matched_groups.foldl (fun m2 gm => bumpKey m2 gm.group) m) []

/-- The dict.get default at filter.py line 237.  _check_paper always
stores the 'exclude_reason' key (None when not excluded), so for
partitions produced by filter_papers this default is unreachable. -/
def noGroupSentinel : Str := strL ("未匹配任何包含组")

/-- get_statistics exclusion-reason loop: each irrelevant paper bumps the
count of paper['match_info'].get('exclude_reason', sentinel); because the
key is always present, the key used is the stored Optional value itself
(None for never-excluded papers). -/
def reasonCounts (irrelevant : List AnnPaper) : List (Option Str × Nat) :=
  irrelevant.foldl (fun m p => bumpKey m p.match_info.exclude_reason) []

/-- The summary returned by get_statistics.  The relevance rate is a
float in Python, modelled as an exact rational. -/
structure Stats where
  total_papers : Nat
  relevant_count : Nat
  irrelevant_count : Nat
  relevance_rate : ℚ
  group_matches : List (List Str × Nat)
  exclusion_reasons : List (Option Str × Nat)

/-- KeywordFilter.get_statistics. -/
def getStatistics (relevant irrelevant : List AnnPaper) : Stats :=
  let total := relevant.length + irrelevant.length
  { total_papers := total
    relevant_count := relevant.length
    irrelevant_count := irrelevant.length
    relevance_rate := if 0 < total then (relevant.length : ℚ) / (total : ℚ) * 100 else 0
    group_matches := groupCounts relevant
    exclusion_reasons := reasonCounts irrelevant }

/-! Helper lemmas about the embedded engine. -/

/-- The empty literal is found in every text by plain substring search. -/
theorem subB_nil (t : Str) : subB [] t = true := by
  cases t <;> simp [subB, leadsB]

/-- Normalising the empty literal yields the empty literal. -/
theorem normWord_nil (cfg : FilterConfig) : normWord cfg [] = [] := by
  cases h : cfg.case_sensitive <;> simp [normWord, h, toLowerStr]

/-- checkPaper when the exclusion pass found nothing. -/
theorem checkPaper_none (cfg : FilterConfig) (text : Str)
    (hE : checkExclude cfg text cfg.exclude = none) :
    checkPaper cfg text =
      { is_relevant := !(collectGroups cfg text (withIdx 0 cfg.include_groups)).isEmpty,
        matched_groups := collectGroups cfg text (withIdx 0 cfg.include_groups),
        matched_keywords :=
          ((collectGroups cfg text (withIdx 0 cfg.include_groups)).flatMap
            GroupMatch.matched_keywords).dedup,
        excluded := false, exclude_reason := none } := by
  unfold checkPaper
  rw [hE]

/-- checkPaper when the exclusion pass hit. -/
theorem checkPaper_some (cfg : FilterConfig) (text : Str) (r : Str)
    (hE : checkExclude cfg text cfg.exclude = some r) :
    checkPaper cfg text =
      { is_relevant := false, matched_groups := [], matched_keywords := [],
        excluded := true, exclude_reason := some r } := by
  unfold checkPaper
  rw [hE]

/-- The synonym scan of the exclusion pass succeeds iff some synonym's
pattern search succeeds. -/
theorem firstMatchingSyn_isSome_iff (cfg : FilterConfig) (text : Str) (l : List Str) :
    (firstMatchingSyn cfg text l).isSome = true ↔
      ∃ s ∈ l, containsKeyword cfg text s = true := by
  induction l with
  | nil => simp [firstMatchingSyn]
  | cons s rest ih =>
    simp only [firstMatchingSyn]
    cases hs : containsKeyword cfg text s <;> simp_all

/-- The exclusion pass hits iff some exclude word matches directly or via
one of its synonyms. -/
theorem checkExclude_isSome_iff (cfg : FilterConfig) (text : Str) (ws : List Str) :
    (checkExclude cfg text ws).isSome = true ↔
      ∃ w ∈ ws, containsKeyword cfg text w = true ∨
        ∃ s ∈ synsOf cfg w, containsKeyword cfg text s = true := by
  induction ws with
  | nil => simp [checkExclude]
  | cons w rest ih =>
    simp only [checkExclude]
    cases hw : containsKeyword cfg text w
    · have hsyn := firstMatchingSyn_isSome_iff cfg text (synsOf cfg w)
      cases hf : firstMatchingSyn cfg text (synsOf cfg w)
      · rw [hf] at hsyn
        simp only [Option.isSome_none, Bool.false_eq_true, false_iff] at hsyn
        simp_all
      · rw [hf] at hsyn
        simp only [Option.isSome_some, true_iff] at hsyn
        simp_all
    · simp_all

/-- Closed form of the include-synonym scan: any-match flag plus the
decorated list of every matching synonym in configured order. -/
theorem synScan_eq (cfg : FilterConfig) (text kw : Str) (l : List Str) :
    synScan cfg text kw l =
      ((l.any fun s => containsKeyword cfg text s),
       (l.filter fun s => containsKeyword cfg text s).map
         fun s => s ++ strL ("(") ++ kw ++ strL (")")) := by
  induction l with
  | nil => rfl
  | cons s rest ih =>
    simp only [synScan, ih]
    cases hs : containsKeyword cfg text s <;>
      simp [hs, List.filter_cons, List.any_cons]

/-- A group check succeeds iff every keyword of the group matched. -/
theorem checkGroup_isSome_iff (cfg : FilterConfig) (text : Str) (g : List Str) :
    (checkGroup cfg text g).isSome = true ↔
      ∀ kw ∈ g, (keywordMatches cfg text kw).1 = true := by
  induction g with
  | nil => simp [checkGroup]
  | cons kw rest ih =>
    simp only [checkGroup]
    cases hk : (keywordMatches cfg text kw).1
    · simp [hk]
    · cases hr : checkGroup cfg text rest <;> simp_all

/-- The recorded matched groups are exactly the fully matched groups, in
order, independently of the running index. -/
theorem collectGroups_map_group (cfg : FilterConfig) (text : Str) (n : Nat)
    (gs : List (List Str)) :
    (collectGroups cfg text (withIdx n gs)).map GroupMatch.group =
      gs.filter fun g => (checkGroup cfg text g).isSome := by
  induction gs generalizing n with
  | nil => rfl
  | cons g rest ih =>
    simp only [withIdx, collectGroups]
    cases hG : checkGroup cfg text g with
    | none => simpa [List.filter_cons, hG] using ih (n + 1)
    | some ws => simp [List.filter_cons, hG, ih (n + 1)]

/-- Membership of the empty literal in the compiled pattern keys, given
an include group contains it. -/
theorem nil_mem_getAllKeywords (cfg : FilterConfig)
    (h : ∃ g ∈ cfg.include_groups, ([] : Str) ∈ g) :
    ([] : Str) ∈ getAllKeywords cfg := by
  obtain ⟨g, hg, hw⟩ := h
  unfold getAllKeywords
  apply List.mem_append_left
  rw [List.mem_flatMap]
  refine ⟨g, hg, ?_⟩
  rw [List.mem_flatMap]
  refine ⟨[], hw, ?_⟩
  rw [normWord_nil]
  exact List.mem_cons_self _ _

/-- Bumping one key raises exactly that key's count by one. -/
theorem lookupCount_bumpKey {κ : Type} [DecidableEq κ]
    (m : List (κ × Nat)) (k k2 : κ) :
    lookupCount (bumpKey m k) k2 = lookupCount m k2 + (if k = k2 then 1 else 0) := by
  induction m with
  | nil =>
    by_cases h : k = k2 <;> simp [bumpKey, lookupCount, h]
  | cons kv rest ih =>
    by_cases h1 : kv.1 = k
    · by_cases h2 : k = k2 <;> simp_all [bumpKey, lookupCount, h1, h2]
    · by_cases h2 : kv.1 = k2
      · have hne : ¬(k = k2) := fun he => h1 (he ▸ h2)
        have hne2 : ¬(k2 = k) := fun he => hne he.symm
        simp [bumpKey, lookupCount, h1, h2, hne, hne2]
      · simp [bumpKey, lookupCount, h1, h2, ih]

/-- Folding the matched groups of one paper into the counts dict adds the
occurrences of each key among that paper's groups. -/
theorem lookupCount_groupFold (l : List GroupMatch) (m : List (List Str × Nat))
    (k : List Str) :
    lookupCount (l.foldl (fun m2 gm => bumpKey m2 gm.group) m) k =
      lookupCount m k + l.countP (fun gm => decide (gm.group = k)) := by
  induction l generalizing m with
  | nil => simp
  | cons gm rest ih =>
    simp only [List.foldl_cons, List.countP_cons, ih, lookupCount_bumpKey]
    by_cases h : gm.group = k
    · simp [h]
      omega
    · simp [h]

/-- Closed form of the per-group statistics: the count of a keyword tuple
is the number of matched-group records carrying that tuple, over the
whole relevant partition. -/
theorem lookupCount_groupCounts (r : List AnnPaper) (k : List Str) :
    lookupCount (groupCounts r) k =
      ((r.flatMap fun p => p.match_info.matched_groups).countP
        fun gm => decide (gm.group = k)) := by
  suffices h : ∀ m, lookupCount
      (r.foldl (fun m p => p.match_info.matched_groups.foldl
        (fun m2 gm => bumpKey m2 gm.group) m) m) k =
      lookupCount m k +
        ((r.flatMap fun p => p.match_info.matched_groups).countP
          fun gm => decide (gm.group = k)) by
    have := h []
    simpa [groupCounts, lookupCount] using this
  induction r with
  | nil => simp
  | cons p rest ih =>
    intro m
    simp only [List.foldl_cons, ih, lookupCount_groupFold, List.flatMap_cons,
      List.countP_append]
    omega

/-! Concrete policies and texts used by the per-claim theorems. -/

/-- Policy for C1: a single exclude keyword with builtin synonyms, no
include groups. -/
def cfgC1 : FilterConfig := mkFilterConfig [] [strL ("drug")] [] defaultFields false false

/-- Text for C1: it consists of a synonym of the exclude keyword. -/
def tC1 : Str := strL ("pharmaceutical treatment")

/-- Claim C1 (code_bug evidence): the resolved synonym table maps 'drug'
to surface forms including 'pharmaceutical', the text plainly contains
that surface form, yet evaluation does not exclude the record — the
pattern table built by _get_all_keywords never contains the synonyms of
exclude keywords, so _contains_keyword misses and returns False. -/
theorem exclude_synonym_pattern_missing :
    lookupB (strL ("drug")) cfgC1.synonyms =
      some [strL ("pharmaceutical"), strL ("medication"),
            strL ("medicine"), strL ("therapeutic")] ∧
    subB (strL ("pharmaceutical")) tC1 = true ∧
    (strL ("pharmaceutical")) ∉ getAllKeywords cfgC1 ∧
    (checkPaper cfgC1 tC1).excluded = false ∧
    (checkPaper cfgC1 tC1).exclude_reason = none ∧
    (checkPaper cfgC1 tC1).is_relevant = false := by decide

/-- Policy for C2: one include keyword authored in mixed case, with
case_sensitive false. -/
def cfgC2 : FilterConfig :=
  mkFilterConfig [[strL ("Transformer")]] [] [] defaultFields false false

/-- Text for C2: contains the literal in lowercase. -/
def tC2 : Str := strL ("a transformer model")

/-- Claim C2 counterexample: with case_sensitive false, the mixed-case
authored literal 'Transformer' occurs in the text up to case (its
lowercasing is a substring of the lowercased text), yet the lookup of
the authored form misses the lowercased pattern table, the literal does
not match, and the record is not relevant. -/
theorem mixedcase_keyword_counterexample :
    subB (toLowerStr (strL ("Transformer"))) (toLowerStr tC2) = true ∧
    getAllKeywords cfgC2 = [strL ("transformer")] ∧
    containsKeyword cfgC2 tC2 (strL ("Transformer")) = false ∧
    (checkPaper cfgC2 tC2).is_relevant = false := by decide

/-- Claim C2 as amended: when case_sensitive is false, matching is
case-insensitive in the text — the result of a keyword test is invariant
under any recasing of the text — and a literal absent from the compiled
pattern table (as every literal authored with an uppercase character is,
since the table stores lowercased keys while lookup uses the authored
form) never matches any text. -/
theorem ci_matching_amended (cfg : FilterConfig) (w t t2 : Str)
    (h1 : cfg.case_sensitive = false) (h2 : toLowerStr t = toLowerStr t2) :
    containsKeyword cfg t w = containsKeyword cfg t2 w ∧
    (w ∉ getAllKeywords cfg → containsKeyword cfg t w = false) := by
  constructor
  · by_cases hm : w ∈ getAllKeywords cfg <;>
      simp [containsKeyword, patMatch, h1, h2, hm]
  · intro hw
    simp [containsKeyword, hw]

/-- Witness for the amended C2 at concrete inputs. -/
theorem ci_matching_amended_witness :
    containsKeyword cfgC2 (strL ("A TRANSFORMER")) (strL ("transformer")) =
      containsKeyword cfgC2 (strL ("a transformer")) (strL ("transformer")) ∧
    containsKeyword cfgC2 (strL ("a transformer")) (strL ("Zebra")) = false :=
  ⟨(ci_matching_amended cfgC2 (strL ("transformer")) (strL ("A TRANSFORMER"))
      (strL ("a transformer")) rfl (by decide)).1,
   (ci_matching_amended cfgC2 (strL ("Zebra")) (strL ("a transformer"))
      (strL ("a transformer")) rfl rfl).2 (by decide)⟩

/-- Policy for C5: include_groups contains one empty group. -/
def cfgC5 : FilterConfig := mkFilterConfig [[]] [] [] defaultFields false false

/-- Policy for C5: include_groups is the empty list. -/
def cfgC5z : FilterConfig := mkFilterConfig [] [] [] defaultFields false false

/-- Claim C5 counterexample: an include group with zero keywords is
vacuously satisfied — the record matches it and is relevant, contrary to
the claim that an empty group is never satisfied. -/
theorem empty_group_counterexample :
    (checkPaper cfgC5 (strL ("any record text"))).excluded = false ∧
    (checkPaper cfgC5 (strL ("any record text"))).is_relevant = true ∧
    (checkPaper cfgC5 (strL ("any record text"))).matched_groups =
      [{ group_index := 0, group := [], matched_keywords := [] }] := by decide

/-- Claim C5 as amended: an include group with zero keywords is always
satisfied (the vacuous AND over no keywords is true), so a policy whose
include_groups contains an empty group makes every non-excluded record
relevant; a policy with include_groups equal to the empty list still
classifies every non-excluded record as irrelevant, and every excluded
record as irrelevant with a populated exclude_reason. -/
theorem empty_group_amended (cfg : FilterConfig) (text : Str) :
    (([] : List Str) ∈ cfg.include_groups → (checkPaper cfg text).excluded = false →
      (checkPaper cfg text).is_relevant = true) ∧
    (cfg.include_groups = [] →
      (checkPaper cfg text).is_relevant = false ∧
      ((checkPaper cfg text).excluded = true →
        (checkPaper cfg text).exclude_reason ≠ none)) := by
  cases hE : checkExclude cfg text cfg.exclude with
  | some r =>
    rw [checkPaper_some cfg text r hE]
    exact ⟨fun _ hexc => by simp at hexc, fun _ => ⟨rfl, fun _ => by simp⟩⟩
  | none =>
    rw [checkPaper_none cfg text hE]
    constructor
    · intro hmem _
      have hmap := collectGroups_map_group cfg text 0 cfg.include_groups
      have hpred : (checkGroup cfg text ([] : List Str)).isSome = true := by
        simp [checkGroup]
      have hin : ([] : List Str) ∈
          (collectGroups cfg text (withIdx 0 cfg.include_groups)).map GroupMatch.group := by
        rw [hmap]
        exact List.mem_filter.2 ⟨hmem, hpred⟩
      rcases List.mem_map.1 hin with ⟨gm, hgm, -⟩
      have hne : collectGroups cfg text (withIdx 0 cfg.include_groups) ≠ [] := by
        intro hnil
        rw [hnil] at hgm
        exact List.not_mem_nil _ hgm
      simpa [List.isEmpty_iff] using hne
    · intro hnil
      rw [hnil]
      exact ⟨by simp [withIdx, collectGroups], fun hexc => by simp at hexc⟩

/-- Witness for the amended C5 at concrete inputs, one per branch. -/
theorem empty_group_amended_witness :
    (checkPaper cfgC5 (strL ("x"))).is_relevant = true ∧
    (checkPaper cfgC5z (strL ("x"))).is_relevant = false :=
  ⟨(empty_group_amended cfgC5 (strL ("x"))).1 (by decide) (by decide),
   ((empty_group_amended cfgC5z (strL ("x"))).2 rfl).1⟩

/-- Policy for C6: one include keyword whose synonyms are the builtin
surface forms of 'protein'. -/
def cfgC6 : FilterConfig :=
  mkFilterConfig [[strL ("protein")]] [] [] defaultFields false false

/-- Text for C6: three surface forms of 'protein' occur ('protein' as a
substring of 'proteins', the synonym 'proteins', and 'peptide'). -/
def tC6 : Str := strL ("proteins peptide")

/-- Claim C6 counterexample: when several surface forms of one keyword
occur, the diagnostics report every matching surface form (here three
entries for the single keyword 'protein'), not exactly one. -/
theorem all_surface_forms_counterexample :
    (checkPaper cfgC6 tC6).matched_groups =
      [{ group_index := 0, group := [strL ("protein")],
         matched_keywords :=
           [strL ("protein"), strL ("proteins(protein)"), strL ("peptide(protein)")] }] ∧
    ((checkPaper cfgC6 tC6).matched_groups.map fun gm => gm.matched_keywords.length) =
      [3] := by decide

/-- Claim C6 as amended: in the inclusion pass the diagnostics for a
keyword list every matching surface form, in iteration order — the
keyword itself first (undecorated) when its own pattern matches, then
each matching synonym in configured order decorated as syn(keyword) —
so the number of entries is the number of matching surface forms, not
one. -/
theorem surface_forms_reported_all (cfg : FilterConfig) (text kw : Str) :
    (keywordMatches cfg text kw).1 =
      (containsKeyword cfg text kw ||
        ((synsOf cfg kw).any fun s => containsKeyword cfg text s)) ∧
    (keywordMatches cfg text kw).2 =
      (if containsKeyword cfg text kw then [kw] else []) ++
        (((synsOf cfg kw).filter fun s => containsKeyword cfg text s).map
          fun s => s ++ strL ("(") ++ kw ++ strL (")")) ∧
    (keywordMatches cfg text kw).2.length =
      (if containsKeyword cfg text kw then 1 else 0) +
        ((synsOf cfg kw).countP fun s => containsKeyword cfg text s) := by
  have h := synScan_eq cfg text kw (synsOf cfg kw)
  unfold keywordMatches
  rw [h]
  cases hd : containsKeyword cfg text kw <;>
    simp [hd, List.countP_eq_length_filter, Nat.add_comm]

/-- Policy for C3 (two singleton include groups, OR between them). -/
def cfgC3 : FilterConfig :=
  mkFilterConfig [[strL ("protein")], [strL ("graph")]] [] [] defaultFields false false

/-- Text for C3: matches only the second group, via a synonym. -/
def tC3 : Str := strL ("graph neural network")

/-- Claim C3: for a non-excluded record, relevance holds iff some include
group has every keyword matched (directly or via a synonym, through the
compiled pattern table), and the recorded matched groups are exactly the
fully matched groups in order — every group is evaluated, none is
skipped after the first success.  The intra-group stop at the first
unmatched keyword is the break mirrored by the embedded checkGroup. -/
theorem include_groups_or_and (cfg : FilterConfig) (text : Str)
    (h : (checkPaper cfg text).excluded = false) :
    ((checkPaper cfg text).is_relevant = true ↔
      ∃ g ∈ cfg.include_groups, ∀ kw ∈ g, (keywordMatches cfg text kw).1 = true) ∧
    (checkPaper cfg text).matched_groups.map GroupMatch.group =
      cfg.include_groups.filter fun g => g.all fun kw => (keywordMatches cfg text kw).1 := by
  cases hE : checkExclude cfg text cfg.exclude with
  | some r =>
    rw [checkPaper_some cfg text r hE] at h
    simp at h
  | none =>
    rw [checkPaper_none cfg text hE]
    have hmap := collectGroups_map_group cfg text 0 cfg.include_groups
    have hfe : (cfg.include_groups.filter fun g => (checkGroup cfg text g).isSome) =
        cfg.include_groups.filter fun g => g.all fun kw => (keywordMatches cfg text kw).1 := by
      apply List.filter_congr
      intro g _
      rw [Bool.eq_iff_iff, checkGroup_isSome_iff]
      simp [List.all_eq_true]
    constructor
    · simp only [Bool.not_eq_eq_eq_not, Bool.not_true, List.isEmpty_eq_false,
        Bool.not_eq_false']
      rw [ne_eq, ← List.map_eq_nil_iff (f := GroupMatch.group), hmap]
      rw [List.filter_eq_nil_iff]
      push_neg
      constructor
      · rintro ⟨g, hg, hp⟩
        exact ⟨g, hg, (checkGroup_isSome_iff cfg text g).1 (by simpa using hp)⟩
      · rintro ⟨g, hg, hp⟩
        exact ⟨g, hg, by simpa using (checkGroup_isSome_iff cfg text g).2 hp⟩
    · rw [hmap, hfe]

/-- Witness for C3 at a concrete non-excluded record (spec Scenario C). -/
theorem include_groups_or_and_witness :
    ((checkPaper cfgC3 tC3).is_relevant = true ↔
      ∃ g ∈ cfgC3.include_groups, ∀ kw ∈ g, (keywordMatches cfgC3 tC3 kw).1 = true) ∧
    (checkPaper cfgC3 tC3).matched_groups.map GroupMatch.group =
      cfgC3.include_groups.filter fun g => g.all fun kw => (keywordMatches cfgC3 tC3 kw).1 :=
  include_groups_or_and cfgC3 tC3 (by decide)

/-- Policy and text for C4 (spec Scenario B). -/
def cfgC4 : FilterConfig :=
  mkFilterConfig [[strL ("molecular"), strL ("generation")]] [strL ("survey")] []
    defaultFields false false

/-- Text for C4: hits the exclude keyword and both include keywords. -/
def tC4 : Str := strL ("this survey reviews molecular generation methods")

/-- Claim C4: a record is excluded exactly when some exclude keyword
matches directly or via one of its synonyms (through the compiled
pattern table), and an excluded record is never relevant and carries no
include-group results — matched_groups and matched_keywords are empty,
because the exclusion pass returns before any include-group work. -/
theorem exclusion_absolute (cfg : FilterConfig) (text : Str) :
    ((checkPaper cfg text).excluded = true ↔
      ∃ w ∈ cfg.exclude, containsKeyword cfg text w = true ∨
        ∃ s ∈ synsOf cfg w, containsKeyword cfg text s = true) ∧
    ((checkPaper cfg text).excluded = true →
      (checkPaper cfg text).is_relevant = false ∧
      (checkPaper cfg text).matched_groups = [] ∧
      (checkPaper cfg text).matched_keywords = []) := by
  have hiff := checkExclude_isSome_iff cfg text cfg.exclude
  cases hE : checkExclude cfg text cfg.exclude with
  | some r =>
    rw [hE] at hiff
    rw [checkPaper_some cfg text r hE]
    simp only [Option.isSome_some, true_iff] at hiff
    exact ⟨by simpa using hiff, fun _ => ⟨rfl, rfl, rfl⟩⟩
  | none =>
    rw [hE] at hiff
    rw [checkPaper_none cfg text hE]
    simp only [Option.isSome_none, Bool.false_eq_true, false_iff] at hiff
    constructor
    · simpa using hiff
    · intro hexc
      simp at hexc

/-- Witness for C4 at a concrete excluded record (spec Scenario B). -/
theorem exclusion_absolute_witness :
    (checkPaper cfgC4 tC4).is_relevant = false ∧
    (checkPaper cfgC4 tC4).matched_groups = [] ∧
    (checkPaper cfgC4 tC4).matched_keywords = [] :=
  (exclusion_absolute cfgC4 tC4).2 (by decide)

/-- Policy for C7: one include group that the paper will not match. -/
def cfgC7 : FilterConfig :=
  mkFilterConfig [[strL ("protein")]] [] [] defaultFields false false

/-- Paper for C7: irrelevant and never excluded. -/
def paperC7 : Paper := [(strL ("title"), FieldVal.str (strL ("math")))]

/-- Claim C7 (code_bug evidence): a never-excluded irrelevant record is
counted in the exclusion-reason statistics under the key None — the
stored exclude_reason — and not under the sentinel string, because
_check_paper always stores the 'exclude_reason' key (as None), so the
dict.get default at filter.py line 237 never applies. -/
theorem sentinel_reason_dead :
    ((filterPapers cfgC7 [paperC7]).2.map fun a => a.match_info.excluded) = [false] ∧
    (getStatistics (filterPapers cfgC7 [paperC7]).1
      (filterPapers cfgC7 [paperC7]).2).exclusion_reasons = [(none, 1)] ∧
    lookupCount (getStatistics (filterPapers cfgC7 [paperC7]).1
      (filterPapers cfgC7 [paperC7]).2).exclusion_reasons (some noGroupSentinel) = 0 := by
  decide

/-- Policy for C8: an include group containing the empty literal. -/
def cfgC8 : FilterConfig := mkFilterConfig [[strL ("")]] [] [] defaultFields false false

/-- Paper for C8. -/
def paperC8 : Paper := [(strL ("title"), FieldVal.str (strL ("a")))]

/-- Claim C8 counterexample: a policy containing an empty literal does
not fail at construction — re.compile of the escaped empty literal
succeeds, the embedded constructor is total accordingly — and records
are evaluated normally: the record is processed, classified relevant
(the empty pattern matches everywhere), and no error surfaces. -/
theorem empty_literal_counterexample :
    (checkPaper cfgC8 (strL ("a"))).is_relevant = true ∧
    (checkPaper cfgC8 (strL ("a"))).excluded = false ∧
    (filterPapers cfgC8 [paperC8]).1.length = 1 := by decide

/-- Claim C8 as amended: constructing a filter from a policy containing
an empty literal succeeds and no error surfaces at construction or
mid-batch; with whole_word false the empty include-group literal matches
every text, so that keyword is always satisfied. -/
theorem empty_literal_amended (cfg : FilterConfig) (text : Str)
    (h1 : cfg.whole_word = false)
    (h2 : ∃ g ∈ cfg.include_groups, ([] : Str) ∈ g) :
    containsKeyword cfg text [] = true ∧
    (keywordMatches cfg text []).1 = true := by
  have hmem := nil_mem_getAllKeywords cfg h2
  have hck : containsKeyword cfg text [] = true := by
    unfold containsKeyword
    rw [if_pos hmem]
    unfold patMatch
    rw [h1]
    cases hci : (!cfg.case_sensitive) <;> simp [toLowerStr, subB_nil]
  refine ⟨hck, ?_⟩
  unfold keywordMatches
  rw [hck]
  simp

/-- Witness for the amended C8 at a concrete input. -/
theorem empty_literal_amended_witness :
    containsKeyword cfgC8 (strL ("xyz")) [] = true ∧
    (keywordMatches cfgC8 (strL ("xyz")) []).1 = true :=
  empty_literal_amended cfgC8 (strL ("xyz")) rfl (by decide)

/-- Claim C9: classification annotates every input record exactly once,
in input order — the two partitions are the order-preserving filters of
the annotated input by the relevance flag — and the original record is
carried unchanged inside each annotated copy (the embedding is pure, as
is the source up to paper.copy(), which shields the input dict). -/
theorem classify_partition_order (cfg : FilterConfig) (papers : List Paper) :
    filterPapers cfg papers =
      ((papers.map (annotate cfg)).filter fun a => a.match_info.is_relevant,
       (papers.map (annotate cfg)).filter fun a => !a.match_info.is_relevant) ∧
    (papers.map (annotate cfg)).map AnnPaper.paper = papers := by
  constructor
  · induction papers with
    | nil => rfl
    | cons p rest ih =>
      simp only [filterPapers, List.map_cons, List.filter_cons, ih]
      cases h : (annotate cfg p).match_info.is_relevant <;> simp [h]
  · induction papers with
    | nil => rfl
    | cons p rest ih =>
      simp only [List.map_cons, ih]
      rfl

/-- An annotated paper used by the C10 witness. -/
def annC10 : AnnPaper :=
  { paper := [], relevant := true,
    match_info :=
      { is_relevant := true, matched_groups := [], matched_keywords := [],
        excluded := false, exclude_reason := none } }

/-- Claim C10: the statistics report the lengths of the two partitions
and their sum, the relevance rate is relevant/total*100 guarded to zero
on an empty batch, and the per-group counts are keyed by the ordered
keyword tuple of each matched group — the count of a key is the number
of matched-group records with that tuple, independent of group_index. -/
theorem statistics_totals_and_keys (r i : List AnnPaper) :
    (getStatistics r i).total_papers = r.length + i.length ∧
    (getStatistics r i).relevant_count = r.length ∧
    (getStatistics r i).irrelevant_count = i.length ∧
    (r.length + i.length = 0 → (getStatistics r i).relevance_rate = 0) ∧
    (0 < r.length + i.length →
      (getStatistics r i).relevance_rate =
        (r.length : ℚ) / ((r.length : ℚ) + (i.length : ℚ)) * 100) ∧
    (∀ k : List Str, lookupCount (getStatistics r i).group_matches k =
      ((r.flatMap fun p => p.match_info.matched_groups).countP
        fun gm => decide (gm.group = k))) := by
  refine ⟨rfl, rfl, rfl, ?_, ?_, ?_⟩
  · intro h
    simp [getStatistics, h]
  · intro h
    simp only [getStatistics, if_pos h]
    push_cast
    ring
  · intro k
    simpa [getStatistics] using lookupCount_groupCounts r k

/-- Witness for C10 discharging both rate branches at concrete partitions. -/
theorem statistics_totals_and_keys_witness :
    (getStatistics ([] : List AnnPaper) ([] : List AnnPaper)).relevance_rate = 0 ∧
    (getStatistics [annC10] ([] : List AnnPaper)).relevance_rate = 100 := by
  constructor
  · exact (statistics_totals_and_keys [] []).2.2.2.1 rfl
  · have h := (statistics_totals_and_keys [annC10] []).2.2.2.2.1 (by decide)
    rw [h]
    norm_num
